import Mathlib

/-!
Verification of the PKOD parking/occupancy counting core.

This file gives a shallow embedding, in Lean, of the counting core of the
PKOD1 system (`src/PKOD1`): the per-track crossing state machine
(`events/event_manager.py`), the admin-command handler and the per-frame
counting logic of `main.py`, the occupancy-store load/save clamping
(`state/occupancy_store.py`), the reassociation cache
(`identity/tracklet_buffer.py`), and the ROI visibility observer
(`roi_ocr/roi_observer.py`).  Python dictionaries are modelled as total
functions, mutation as explicit state passing, and the pixel/time
quantities as rationals (Python floats are treated as exact arithmetic).
-/

namespace PKOD

/-! ### Configuration constants (`config.py`) -/

def MAX_CAPACITY : Int := 80

/-- The counting line `[x1, y1, x2, y2] = [250, 370, 1100, 370]`. -/
def LINE0 : ℚ := 250

def LINE1 : ℚ := 370

def LINE2 : ℚ := 1100

def DETECTED_MIN_FRAMES : Nat := 5

def ARM_MIN_FRAMES : Nat := 3

def CONFIRM_FRAMES : Nat := 2

def MIN_DISPLACEMENT : ℚ := 30

def PRE_ZONE_PIXELS : ℚ := 80

def DIRECTION_STABLE_FRAMES : Nat := 4

def REID_HISTORY_SIZE : Nat := 30

def LOST_BUFFER_SECS : ℚ := 2

def MAX_REASSOC_DISTANCE : ℚ := 200

/-- The `APPEARANCE_WEIGHT = 0.2`. -/
def APPEARANCE_WEIGHT : ℚ := 1/5

/-! ### Basic data of the crossing state machine (`events/event_manager.py`) -/

/-- A finalized crossing event, `'entry'` or `'exit'` in the Python code. -/
inductive Event where
  | entry
  | exit
deriving DecidableEq, Repr

/-- Approach direction, `'up'` or `'down'` in the Python code. -/
inductive ApproachDir where
  | up
  | down
deriving DecidableEq, Repr

/-- FSM phase of one track: `st['state']` in the Python code. -/
inductive Phase where
  | DETECTED
  | APPROACHING
  | ARMED
  | CROSSED
  | FINALIZED
deriving DecidableEq, Repr

/-- A tracked position `(x, y)` in pixels. -/
abbrev Pos := ℚ × ℚ

/-- The `pos_history[-k:]` — the last `k` elements of a list. -/
def lastN (k : Nat) (l : List α) : List α := l.drop (l.length - k)

/-- Insertion into an ascending-sorted list of rationals. -/
def insertAsc (x : ℚ) : List ℚ → List ℚ
  | [] => [x]
  | y :: ys => if x ≤ y then x :: y :: ys else y :: insertAsc x ys

/-- Ascending insertion sort on rationals. -/
def sortAsc : List ℚ → List ℚ
  | [] => []
  | x :: xs => insertAsc x (sortAsc xs)

/-- The `np.median`: the middle element of the ascending sort for an odd length,
the mean of the two middle elements for an even length.  The empty case
(0 here) is unreachable in the embedded code. -/
def npMedian (l : List ℚ) : ℚ :=
  let s := sortAsc l
  let n := s.length
  if n = 0 then 0
  else if n % 2 = 1 then s.getD (n / 2) 0
  else (s.getD (n / 2 - 1) 0 + s.getD (n / 2) 0) / 2

/-- Median of the y coordinates of a list of positions. -/
def medianYs (ps : List Pos) : ℚ := npMedian (ps.map Prod.snd)

/-- The `VehicleEventManager._movement_vector`: approximate `dy` over the
history window (`ys[-1] - ys[0]`, or 0 when fewer than two samples). -/
def movement_vector (hist : List Pos) : ℚ :=
  if hist.length < 2 then 0
  else (hist.getLastD (0, 0)).2 - (hist.headD (0, 0)).2

/-- The per-track state dict created by `process` via `setdefault`. -/
structure TrackState where
  phase : Phase
  first_seen : Nat
  last_seen : Nat
  approach_dir : Option ApproachDir
  approach_frames : Nat
  arm_frames : Nat
  cross_frame : Option Nat
  confirmed_frames : Nat
  /-- The `'entry' ∈ st['finalized']` -/
  fin_entry : Bool
  /-- The `'exit' ∈ st['finalized']` -/
  fin_exit : Bool
deriving DecidableEq, Repr

/-- The fresh per-track state installed by `setdefault` on first observation. -/
def freshTrack (frame_idx : Nat) : TrackState :=
  { phase := .DETECTED, first_seen := frame_idx, last_seen := frame_idx,
    approach_dir := none, approach_frames := 0, arm_frames := 0,
    cross_frame := none, confirmed_frames := 0,
    fin_entry := false, fin_exit := false }

/-- One call of `VehicleEventManager.process`, restricted to the single
track it reads and writes.  Returns the produced event (if any) and the
updated per-track state.  `st` is the stored state with `last_seen`
already refreshed (the Python code mutates `st['last_seen']` first). -/
def processTrack (st : TrackState) (center_y : ℚ) (pos_history : List Pos)
    (frame_idx : Nat) : Option Event × TrackState :=
  if st.fin_entry ∧ st.fin_exit then (none, st)
  else
    let hist := lastN DIRECTION_STABLE_FRAMES pos_history
    match st.phase with
  | Phase.DETECTED =>
      if pos_history.length ≥ DETECTED_MIN_FRAMES then
        let win := lastN DETECTED_MIN_FRAMES pos_history
        let mv := movement_vector win
        if |mv| ≥ 2 then
          if mv < 0 ∧ medianYs win > LINE1 then
            (none, { st with approach_dir := some .up, phase := .APPROACHING })
          else if mv > 0 ∧ medianYs win < LINE1 then
            (none, { st with approach_dir := some .down, phase := .APPROACHING })
          else (none, st)
        else (none, st)
      else (none, st)
  | Phase.APPROACHING =>
      let st1 :=
        if pos_history.length ≥ 2 then
          let dists := hist.map (fun p => |p.2 - LINE1|)
          if dists.length ≥ 2 ∧ dists.getLastD 0 < dists.headD 0 then
            { st with approach_frames := st.approach_frames + 1 }
          else
            { st with approach_frames := st.approach_frames - 1 }
        else st
      if st1.approach_frames ≥ ARM_MIN_FRAMES ∧ |center_y - LINE1| ≤ PRE_ZONE_PIXELS then
        (none, { st1 with phase := .ARMED, arm_frames := 0 })
      else (none, st1)
  | Phase.ARMED =>
      let st1 := { st with arm_frames := st.arm_frames + 1 }
      if st1.approach_dir = some .up ∧ center_y < LINE1 ∧ medianYs hist > LINE1 then
        (none, { st1 with phase := .CROSSED, cross_frame := some frame_idx })
      else if st1.approach_dir = some .down ∧ center_y > LINE1 ∧ medianYs hist < LINE1 then
        (none, { st1 with phase := .CROSSED, cross_frame := some frame_idx })
      else if |center_y - LINE1| > PRE_ZONE_PIXELS * (3/2 : ℚ) then
        (none, { st1 with phase := .APPROACHING, approach_frames := 0 })
      else (none, st1)
  | Phase.CROSSED =>
      let intended : Event := if st.approach_dir = some .up then .entry else .exit
      let delta : ℚ := if st.approach_dir = some .up then LINE1 - center_y else center_y - LINE1
      let st1 :=
        if delta ≥ MIN_DISPLACEMENT then { st with confirmed_frames := st.confirmed_frames + 1 }
        else { st with confirmed_frames := 0 }
      let side_flags := (lastN CONFIRM_FRAMES pos_history).map
        (fun p => if p.2 < LINE1 then (1 : Nat) else 0)
      let side_consistent :=
        if side_flags.length ≥ CONFIRM_FRAMES then
          side_flags.all (fun x => x == side_flags.headD 0)
        else false
      if st1.confirmed_frames ≥ CONFIRM_FRAMES ∧ side_consistent then
        (some intended,
          { st1 with phase := .FINALIZED,
                     fin_entry := st1.fin_entry || intended == .entry,
                     fin_exit := st1.fin_exit || intended == .exit })
      else if st1.approach_dir = some .up ∧ center_y > LINE1 then
        (none, { st1 with phase := .ARMED, confirmed_frames := 0 })
      else if st1.approach_dir = some .down ∧ center_y < LINE1 then
        (none, { st1 with phase := .ARMED, confirmed_frames := 0 })
      else (none, st1)
  | Phase.FINALIZED => (none, st)

/-- The `VehicleEventManager.state`: the per-track state dict. -/
def EMState := Nat → Option TrackState

/-- An empty event-manager state dict. -/
def emEmpty : EMState := fun _ => none

/-- Writing one track's state back into the dict. -/
def EMState.set (em : EMState) (track_id : Nat) (st : TrackState) : EMState :=
  fun i => if i = track_id then some st else em i

/-- The `VehicleEventManager.process(track_id, center_y, pos_history, frame_idx)`:
installs a fresh state via `setdefault` when the id is new, refreshes
`last_seen`, runs the per-track step, and writes the state back. -/
def process (em : EMState) (track_id : Nat) (center_y : ℚ)
    (pos_history : List Pos) (frame_idx : Nat) : Option Event × EMState :=
  let st0 := (em track_id).getD (freshTrack frame_idx)
  let r := processTrack { st0 with last_seen := frame_idx } center_y pos_history frame_idx
  (r.1, em.set track_id r.2)

/-- One observation fed to the event manager (the arguments the main loop
passes to `process` for one detection in one frame). -/
structure Obs where
  id : Nat
  center_y : ℚ
  hist : List Pos
  frame_idx : Nat
deriving Repr

/-- Feed a list of observations through `process`, collecting the results. -/
def runEvents (em : EMState) : List Obs → List (Option Event)
  | [] => []
  | o :: rest =>
      (process em o.id o.center_y o.hist o.frame_idx).1 ::
        runEvents (process em o.id o.center_y o.hist o.frame_idx).2 rest

/-- Feed a list of observations through `process`, keeping the final state. -/
def runEM (em : EMState) : List Obs → EMState
  | [] => em
  | o :: rest => runEM (process em o.id o.center_y o.hist o.frame_idx).2 rest

/-- The number of non-`None` results `process` returns for `id` along a run. -/
def emitCount (em : EMState) (l : List Obs) (id : Nat) : Nat :=
  match l with
  | [] => 0
  | o :: rest =>
      (if o.id = id ∧ ((process em o.id o.center_y o.hist o.frame_idx).1).isSome then 1 else 0) +
        emitCount (process em o.id o.center_y o.hist o.frame_idx).2 rest id

/-! ### Admin commands and the occupancy ledger (`main.py`, `state/occupancy_store.py`) -/

/-- An administrative command file `{id, command, value, ts}`. -/
structure AdminCmd where
  command : String
  value : Int
  ts : ℚ
deriving Repr

/-- The `check_admin_commands` from `main.py`.  `cmd = none` covers both "no
command file" and "file unreadable" (the exception path), which leave the
state unchanged with `updated = False`.  Result:
`(occupancy, entry_count, exit_count, frozen, updated)`. -/
def check_admin_commands (cmd : Option AdminCmd) (now : ℚ)
    (occupancy entry_count exit_count : Int) (frozen : Bool) :
    Int × Int × Int × Bool × Bool :=
  match cmd with
  | none => (occupancy, entry_count, exit_count, frozen, false)
  | some c =>
      if |now - c.ts| > 10 then (occupancy, entry_count, exit_count, frozen, false)
      else if c.command = "RESET_SYSTEM" then (0, 0, 0, false, true)
      else if c.command = "SET_OCCUPANCY" then
        (max 0 (min c.value MAX_CAPACITY), entry_count, exit_count, false, true)
      else if c.command = "FORCE_FULL" then (MAX_CAPACITY, entry_count, exit_count, true, true)
      else if c.command = "FREEZE" then (occupancy, entry_count, exit_count, true, true)
      else if c.command = "RESUME_AUTO" then (occupancy, entry_count, exit_count, false, true)
      else (occupancy, entry_count, exit_count, frozen, false)

/-- The `event_manager.counted[track_id]`: which directions were counted. -/
structure CountedSet where
  entry : Bool
  exit : Bool
deriving DecidableEq, Repr

/-- The `defaultdict(set)` default: an empty counted set. -/
def CountedSet.empty : CountedSet := ⟨false, false⟩

/-- The `counted[track_id].add(direction)`. -/
def countedAdd (f : Nat → CountedSet) (id : Nat) (e : Event) : Nat → CountedSet :=
  fun i =>
    if i = id then
      match e with
      | .entry => { f id with entry := true }
      | .exit => { f id with exit := true }
    else f i

/-- The `load_occupancy`: an out-of-range persisted occupancy is clamped into
`[0, MAX_CAPACITY]` before being returned (`occupancy_store.py` lines
39-41). -/
def load_occupancy_clamp (raw : Int) : Int :=
  if raw < 0 ∨ raw > MAX_CAPACITY then max 0 (min raw MAX_CAPACITY) else raw

/-- The `save_occupancy`: the occupancy written to the snapshot is
`int(max(0, min(occupancy, MAX_CAPACITY)))`. -/
def save_occupancy_clamp (occupancy : Int) : Int :=
  max 0 (min occupancy MAX_CAPACITY)

/-- The counting-relevant state of the main loop: the ledger counters and
freeze flag, the event-manager state and counted sets, and the warm-up
deadline. -/
structure SysState where
  occupancy : Int
  entry_count : Int
  exit_count : Int
  frozen : Bool
  em : EMState
  counted : Nat → CountedSet
  warmup_end : ℚ

/-- One detection handed to the counting logic: canonical id, box center,
the tracker's position history, the frame counter, and the wall-clock
time `time.time()` observed when an event fires. -/
structure Detection where
  track_id : Nat
  cx : ℚ
  cy : ℚ
  hist : List Pos
  frame_idx : Nat
  now : ℚ

/-- The counted-event mutation of `main.py`: the counted-set guard, the
capacity-gated entry increment, and the floored exit decrement.  `em2` is
the event-manager state after the `process` call of the same frame. -/
def applyEventCount (s : SysState) (em2 : EMState) (id : Nat) (evt : Event) : SysState :=
  match evt with
  | .entry =>
      if (s.counted id).entry = false then
        if s.occupancy < MAX_CAPACITY then
          { s with em := em2, counted := countedAdd s.counted id .entry,
                   entry_count := s.entry_count + 1, occupancy := s.occupancy + 1 }
        else { s with em := em2 }
      else { s with em := em2 }
  | .exit =>
      if (s.counted id).exit = false then
        { s with em := em2, counted := countedAdd s.counted id .exit,
                 exit_count := s.exit_count + 1, occupancy := max 0 (s.occupancy - 1) }
      else { s with em := em2 }

/-- The occupancy-invariant check of `main.py` lines 289-291: freeze when
the occupancy left the admissible range. -/
def freezeCheck (s : SysState) : SysState :=
  if s.occupancy < 0 ∨ s.occupancy > MAX_CAPACITY then { s with frozen := true } else s

/-- The counting logic of `main.py` (lines 248-291) for one detection:
the center-gate on the line's x-range, the `process` call, the warm-up
and frozen refusals, and the guarded ledger mutation followed by the
freeze check. -/
def applyDetection (s : SysState) (d : Detection) : SysState :=
  if LINE0 < d.cx ∧ d.cx < LINE2 then
    match (process s.em d.track_id d.cy d.hist d.frame_idx).1 with
    | none => { s with em := (process s.em d.track_id d.cy d.hist d.frame_idx).2 }
    | some evt =>
        if d.now < s.warmup_end then
          { s with em := (process s.em d.track_id d.cy d.hist d.frame_idx).2 }
        else if s.frozen then
          { s with em := (process s.em d.track_id d.cy d.hist d.frame_idx).2 }
        else
          freezeCheck
            (applyEventCount s (process s.em d.track_id d.cy d.hist d.frame_idx).2
              d.track_id evt)
  else s

/-- The operations the main loop can perform on the counting state: the
per-frame admin-command check, one detection's counting logic, a
persistence call (`save_occupancy` does not change the loop state), and
the two manual keyboard overrides (`r` and `s`). -/
inductive LoopStep where
  | admin (cmd : Option AdminCmd) (now : ℚ)
  | detect (d : Detection)
  | persist
  | manualReset
  | manualSet (v : Int)

/-- Apply one loop operation to the counting state. -/
def applyStep (s : SysState) (l : LoopStep) : SysState :=
  match l with
  | .admin cmd now =>
      let r := check_admin_commands cmd now s.occupancy s.entry_count s.exit_count s.frozen
      { s with occupancy := r.1, entry_count := r.2.1, exit_count := r.2.2.1,
               frozen := r.2.2.2.1 }
  | .detect d => applyDetection s d
  | .persist => s
  | .manualReset => { s with occupancy := 0, entry_count := 0, exit_count := 0, frozen := false }
  | .manualSet v => { s with occupancy := max 0 (min v MAX_CAPACITY), frozen := false }

/-- Apply a list of loop operations in order. -/
def runSteps (s : SysState) : List LoopStep → SysState
  | [] => s
  | l :: rest => runSteps (applyStep s l) rest

/-- Startup: `load_occupancy` clamps the persisted occupancy, and `main.py`
line 160 computes `frozen` from the value `load_occupancy` returned. -/
def initState (rawOcc ent ex : Int) (wend : ℚ) : SysState :=
  let occ := load_occupancy_clamp rawOcc
  { occupancy := occ, entry_count := ent, exit_count := ex,
    frozen := decide (occ < 0 ∨ occ > MAX_CAPACITY),
    em := emEmpty, counted := fun _ => CountedSet.empty, warmup_end := wend }

/-- A counting-loop state reachable from some loaded snapshot by a
sequence of loop operations. -/
inductive Reachable : SysState → Prop where
  | init (rawOcc ent ex : Int) (wend : ℚ) : Reachable (initState rawOcc ent ex wend)
  | step (s : SysState) (l : LoopStep) : Reachable s → Reachable (applyStep s l)

/-- The number of steps along a run that increment `entry_count` for
observations of the given id. -/
def entryIncrCount (s : SysState) (l : List LoopStep) (id : Nat) : Nat :=
  match l with
  | [] => 0
  | st :: rest =>
      (match st with
       | .detect d =>
           if d.track_id = id ∧ (applyStep s st).entry_count = s.entry_count + 1 then 1 else 0
       | _ => 0) + entryIncrCount (applyStep s st) rest id

/-- The number of steps along a run that increment `exit_count` for
observations of the given id. -/
def exitIncrCount (s : SysState) (l : List LoopStep) (id : Nat) : Nat :=
  match l with
  | [] => 0
  | st :: rest =>
      (match st with
       | .detect d =>
           if d.track_id = id ∧ (applyStep s st).exit_count = s.exit_count + 1 then 1 else 0
       | _ => 0) + exitIncrCount (applyStep s st) rest id

/-! ### Reassociation cache (`identity/tracklet_buffer.py`)

`reassociate` measures the spatial distance with `math.hypot`, a real
square root that has no executable rational counterpart, so the distance
metric is taken as a parameter `dist`; every property proved below holds
for an arbitrary metric, and concrete witnesses instantiate it.  The
`float('inf')` distance of an entry with no stored positions always
exceeds `max_dist`, so that entry is skipped directly. -/

/-- A buffered lost tracklet: feature snapshots, position snapshots and the
last-seen timestamp. -/
structure TrackletRecord where
  features : List (List ℚ)
  positions : List Pos
  last_time : ℚ
deriving Repr

/-- The `TrackletBuffer` state: keep-alive window, maximum reassociation
distance, and the `old_id -> record` dict (as an association list). -/
structure TrackletBufferState where
  keep_secs : ℚ
  max_dist : ℚ
  buffer : List (Nat × TrackletRecord)
deriving Repr

/-- The `scores` list built by `reassociate`: for every non-expired entry
within `max_dist` of `start_pos`, the tuple
`(old_id, blended score, dist)` with
`score = (1 - APPEARANCE_WEIGHT) * motionScore + APPEARANCE_WEIGHT * appearanceScore`. -/
def candidateScores (b : TrackletBufferState) (dist : Pos → Pos → ℚ)
    (start_pos : Pos) (now : ℚ) : List (Nat × ℚ × ℚ) :=
  b.buffer.filterMap (fun e =>
    if now - e.2.last_time > b.keep_secs then none
    else
      match e.2.positions.getLast? with
      | none => none
      | some last_pos =>
          let d := dist start_pos last_pos
          if d > b.max_dist then none
          else
            let motion_score := 1 - d / (b.max_dist + 1/1000000)
            let appearance_score : ℚ := if e.2.features.isEmpty then 0 else 1/2
            some (e.1,
              (1 - APPEARANCE_WEIGHT) * motion_score + APPEARANCE_WEIGHT * appearance_score,
              d))

/-- Stable insertion for a descending sort by score (`scores.sort(...,
reverse=True)`): an element is placed before the first strictly smaller
score, keeping the original order of equal scores. -/
def insertByScoreDesc (x : Nat × ℚ × ℚ) : List (Nat × ℚ × ℚ) → List (Nat × ℚ × ℚ)
  | [] => [x]
  | y :: ys => if x.2.1 ≥ y.2.1 then x :: y :: ys else y :: insertByScoreDesc x ys

/-- Stable descending sort by score. -/
def sortByScoreDesc : List (Nat × ℚ × ℚ) → List (Nat × ℚ × ℚ)
  | [] => []
  | x :: xs => insertByScoreDesc x (sortByScoreDesc xs)

/-- The `del self.buffer[best_id]`. -/
def eraseId (l : List (Nat × TrackletRecord)) (id : Nat) : List (Nat × TrackletRecord) :=
  l.filter (fun e => e.1 ≠ id)

/-- Dict lookup in the buffer. -/
def lookupRecord (l : List (Nat × TrackletRecord)) (id : Nat) : Option (Nat × TrackletRecord) :=
  l.find? (fun e => e.1 = id)

/-- The selection step of `reassociate` on the sorted score list: refuse
when the second-best score is within 85% of the best, otherwise accept
the best positive score, removing the matched entry from the buffer. -/
def reassocPick (b : TrackletBufferState) :
    List (Nat × ℚ × ℚ) → Option Nat × TrackletBufferState
  | [] => (none, b)
  | [best] =>
      if best.2.1 > 0 then (some best.1, { b with buffer := eraseId b.buffer best.1 })
      else (none, b)
  | best :: second :: _ =>
      if second.2.1 ≥ best.2.1 * (17/20) then (none, b)
      else if best.2.1 > 0 then (some best.1, { b with buffer := eraseId b.buffer best.1 })
      else (none, b)

/-- The `TrackletBuffer.reassociate(start_pos, now)`: build the candidate
scores, sort them descending, and run the guarded selection.  Returns the
matched id (or none) and the updated buffer. -/
def reassociate (b : TrackletBufferState) (dist : Pos → Pos → ℚ)
    (start_pos : Pos) (now : ℚ) : Option Nat × TrackletBufferState :=
  reassocPick b (sortByScoreDesc (candidateScores b dist start_pos now))

/-! ### ROI visibility observer (`roi_ocr/roi_observer.py`) -/

/-- The visibility FSM phase (`vs.roi_fsm_state`). -/
inductive RoiPhase where
  | OUTSIDE
  | ENTERING
  | INSIDE
  | EXITING
  | DONE
deriving DecidableEq, Repr

/-- A bounding box `(x1, y1, x2, y2)` in pixels. -/
structure BBox where
  x1 : Int
  y1 : Int
  x2 : Int
  y2 : Int
deriving DecidableEq, Repr

/-- The `PLATE_ROI = {"x1": 708, "y1": 396, "x2": 1071, "y2": 608}`. -/
def ROI_X1 : Int := 708

def ROI_Y1 : Int := 396

def ROI_X2 : Int := 1071

def ROI_Y2 : Int := 608

/-- The `getattr(config, 'PLATE_ROI_MARGIN', 12)`. -/
def PLATE_ROI_MARGIN : Int := 12

/-- The `getattr(config, 'PLATE_ROI_INSIDE_RATIO', 0.85)`. -/
def PLATE_ROI_INSIDE_RATIO : ℚ := 17/20

/-- The `config.MIN_STABLE_FRAMES = 0`. -/
def MIN_STABLE_FRAMES : Nat := 0

/-- The `getattr(config, 'ROI_MISSED_TOLERANCE', 3)`. -/
def ROI_MISSED_TOLERANCE : Nat := 3

/-- The `_bbox_fully_inside`: vertical containment within the ROI plus the
pixel margin, or an overlap-height ratio at least the threshold. -/
def bboxFullyInside (b : BBox) : Bool :=
  if b.y1 ≥ ROI_Y1 - PLATE_ROI_MARGIN ∧ b.y2 ≤ ROI_Y2 + PLATE_ROI_MARGIN then true
  else
    let bbox_h : Int := max 1 (b.y2 - b.y1)
    let overlap_h : Int := max 0 (min b.y2 ROI_Y2 - max b.y1 ROI_Y1)
    decide ((overlap_h : ℚ) / (bbox_h : ℚ) ≥ PLATE_ROI_INSIDE_RATIO)

/-- The `_bbox_partially_inside`: any bounding-box intersection with the ROI. -/
def bboxPartlyInside (b : BBox) : Bool :=
  decide (¬ (b.x2 < ROI_X1 ∨ b.x1 > ROI_X2 ∨ b.y2 < ROI_Y1 ∨ b.y1 > ROI_Y2))

/-- The per-vehicle runtime state (`VehicleState` in `main.py`, plus the
FSM attributes `observe_roi` lazily installs).  `roi_initialized` models
the `hasattr(vs, 'roi_fsm_state')` check. -/
structure VehicleState where
  id : Nat
  has_entered : Bool
  has_exited : Bool
  edge_frames : Nat
  ocr_armed : Bool
  ocr_fired : Bool
  bbox : Option BBox
  direction : Option String
  roi_initialized : Bool
  roi_fsm_state : RoiPhase
  roi_fsm_inside : Nat
  roi_fsm_missed : Nat
  roi_direction_locked : Option String
deriving Repr

/-- The containment-tracking update of the `INSIDE` state of
`observe_roi`: full containment extends the inside streak, partial
overlap decays the missed counter, a full miss past the tolerance moves
to `EXITING`. -/
def roiInsideTrack (vs : VehicleState) (fully partly : Bool) : VehicleState :=
  if fully then
    { vs with roi_fsm_inside := vs.roi_fsm_inside + 1, roi_fsm_missed := 0 }
  else if partly then
    { vs with roi_fsm_missed := vs.roi_fsm_missed - 1 }
  else
    let vs := { vs with roi_fsm_missed := vs.roi_fsm_missed + 1 }
    if vs.roi_fsm_missed > ROI_MISSED_TOLERANCE then
      { vs with roi_fsm_state := .EXITING, roi_fsm_missed := 0 }
    else vs

/-- The isolated OCR trigger check of the `INSIDE` state of `observe_roi`:
when the capture has not fired, the box is fully contained for the stable
streak and exactly inside the ROI vertically, lock the direction (once)
and raise the one-shot flags. -/
def roiOcrTrigger (vs : VehicleState) (bbox : BBox) (direction : String)
    (fully : Bool) : VehicleState :=
  if ¬ vs.ocr_fired ∧ fully ∧ vs.roi_fsm_inside ≥ MIN_STABLE_FRAMES then
    if bbox.y1 ≥ ROI_Y1 ∧ bbox.y2 ≤ ROI_Y2 then
      let vs :=
        if vs.roi_direction_locked = none then
          { vs with roi_direction_locked := some direction }
        else vs
      { vs with ocr_armed := true, ocr_fired := true }
    else vs
  else vs

/-- The `observe_roi(vs, frame)`: the visibility state machine.  The frame is
only read for pixels in `main.py`, never here, so it is not an argument.
The direction strings are always the non-empty `'ENTRY'`/`'EXIT'`, so the
Python truthiness test on `roi_direction_locked` is a `none` test. -/
def observe_roi (vs : VehicleState) : VehicleState :=
  match vs.bbox, vs.direction with
  | none, _ => vs
  | some _, none => vs
  | some bbox, some direction =>
      let vs :=
        if vs.roi_initialized then vs
        else
          { vs with roi_initialized := true, roi_fsm_state := .OUTSIDE,
                    roi_fsm_inside := 0, roi_fsm_missed := 0,
                    roi_direction_locked := none }
      let vs :=
        if vs.roi_direction_locked = none then
          { vs with roi_direction_locked := some direction }
        else vs
      let fully := bboxFullyInside bbox
      let partly := bboxPartlyInside bbox
      match vs.roi_fsm_state with
      | .OUTSIDE =>
          if partly then
            { vs with roi_fsm_state := .ENTERING,
                      roi_fsm_inside := if fully then 1 else 0,
                      roi_fsm_missed := 0 }
          else vs
      | .ENTERING =>
          if fully then
            let vs := { vs with roi_fsm_inside := vs.roi_fsm_inside + 1, roi_fsm_missed := 0 }
            if vs.roi_fsm_inside ≥ MIN_STABLE_FRAMES then { vs with roi_fsm_state := .INSIDE }
            else vs
          else if partly then
            { vs with roi_fsm_missed := vs.roi_fsm_missed - 1 }
          else
            let vs := { vs with roi_fsm_missed := vs.roi_fsm_missed + 1 }
            if vs.roi_fsm_missed > ROI_MISSED_TOLERANCE then
              { vs with roi_fsm_state := .OUTSIDE,
                        roi_fsm_inside := vs.roi_fsm_inside - 1, roi_fsm_missed := 0 }
            else vs
      | .INSIDE => roiOcrTrigger (roiInsideTrack vs fully partly) bbox direction fully
      | .EXITING =>
          if partly then
            if fully then
              { vs with roi_fsm_state := .INSIDE, roi_fsm_inside := 1, roi_fsm_missed := 0 }
            else
              { vs with roi_fsm_missed := vs.roi_fsm_missed - 1 }
          else
            let vs := { vs with roi_fsm_missed := vs.roi_fsm_missed + 1 }
            if vs.roi_fsm_missed > ROI_MISSED_TOLERANCE then
              { vs with roi_fsm_state := .DONE, roi_fsm_inside := 0, roi_fsm_missed := 0 }
            else vs
      | .DONE => vs

/-- The per-frame observer input the Phase-2 loop exposes to `observe_roi`:
the detection's bounding box and inferred direction. -/
structure ObsInput where
  bbox : BBox
  direction : String
deriving Repr

/-- The Phase-2 observer call in `main.py`: set `vs.direction` and
`vs.bbox`, then run `observe_roi`.  The counters are threaded through to
state that the observer has no access to them. -/
def observerPhase (entry_count exit_count : Int) (vs : VehicleState) (i : ObsInput) :
    Int × Int × VehicleState :=
  (entry_count, exit_count,
    observe_roi { vs with bbox := some i.bbox, direction := some i.direction })

/-- Run the observer over a whole sequence of frames. -/
def runObserver (entry_count exit_count : Int) (vs : VehicleState) :
    List ObsInput → Int × Int × VehicleState
  | [] => (entry_count, exit_count, vs)
  | i :: rest =>
      let r := observerPhase entry_count exit_count vs i
      runObserver r.1 r.2.1 r.2.2 rest

/-! ### Concrete runs used by witnesses and counterexamples -/

/-- Build the frame-by-frame observations of a single track whose centers
move vertically through the listed y values at the line's x-range
(`x = 500`), with the tracker's bounded position history. -/
def mkRun (id : Nat) (ys : List ℚ) : List Obs :=
  (List.range ys.length).map (fun k =>
    { id := id, center_y := ys.getD k 0,
      hist := lastN REID_HISTORY_SIZE ((ys.take (k + 1)).map (fun y => ((500 : ℚ), y))),
      frame_idx := k + 1 })

/-- A gradual monotone below-to-above track: approaches the line at
`y = 370` from below, arms inside the pre-zone, crosses, and sustains a
displacement of at least `MIN_DISPLACEMENT` for `CONFIRM_FRAMES` frames. -/
def entryYs : List ℚ := [500, 490, 480, 470, 460, 450, 440, 430, 420, 410, 390, 360, 330, 300]

/-- The mirror-image gradual monotone above-to-below track. -/
def exitYs : List ℚ := [240, 250, 260, 270, 280, 290, 300, 310, 320, 330, 350, 380, 410, 440]

/-- A monotone below-to-above track that crosses the line so fast that its
5-frame median is already above the line once enough history exists. -/
def fastYs : List ℚ := [500, 460, 330, 320, 310, 300, 290, 280, 270, 260]

/-- A strictly monotone (decreasing y) run. -/
def strictlyDecr : List ℚ → Bool
  | [] => true
  | [_] => true
  | a :: b :: rest => decide (b < a) && strictlyDecr (b :: rest)

/-- The track ends with at least `CONFIRM_FRAMES` consecutive positions on
the far (above) side, each at least `MIN_DISPLACEMENT` beyond the line. -/
def sustainedAboveDisplacement (ys : List ℚ) : Bool :=
  decide (ys.length ≥ CONFIRM_FRAMES) &&
    (lastN CONFIRM_FRAMES ys).all (fun y => decide (LINE1 - y ≥ MIN_DISPLACEMENT))

/-! ### Concrete states used by witnesses -/

/-- A concrete state whose id 0 already has both directions counted. -/
def sysCounted : SysState :=
  { initState 0 0 0 0 with counted := fun _ => ⟨true, true⟩ }

/-- A track state that has finalized an entry. -/
def stFinalizedEntry : TrackState :=
  { phase := .FINALIZED, first_seen := 1, last_seen := 14, approach_dir := some .up,
    approach_frames := 3, arm_frames := 4, cross_frame := some 12, confirmed_frames := 2,
    fin_entry := true, fin_exit := false }

/-- An event-manager state whose id 1 has finalized an entry. -/
def emFinalized : EMState := fun i => if i = 1 then some stFinalizedEntry else none

/-- The per-track state of a track that is about to confirm an entry. -/
def stCrossedUp : TrackState :=
  { phase := .CROSSED, first_seen := 1, last_seen := 19, approach_dir := some .up,
    approach_frames := 3, arm_frames := 2, cross_frame := some 18, confirmed_frames := 1,
    fin_entry := false, fin_exit := false }

/-- A loop state still inside the warm-up window whose id 1 is about to
confirm an entry. -/
def sysWarm : SysState :=
  { occupancy := 5, entry_count := 2, exit_count := 1, frozen := false,
    em := fun i => if i = 1 then some stCrossedUp else none,
    counted := fun _ => CountedSet.empty, warmup_end := 100 }

/-- The detection that finalizes id 1's entry during warm-up. -/
def detWarm : Detection :=
  { track_id := 1, cx := 500, cy := 300, hist := [(500, 330), (500, 300)],
    frame_idx := 20, now := 0 }

/-- The Manhattan metric used to instantiate the distance parameter in
concrete witnesses. -/
def distL1 : Pos → Pos → ℚ := fun p q => |p.1 - q.1| + |p.2 - q.2|

/-- A buffer with two equidistant candidates (equal scores). -/
def bufAmbiguous : TrackletBufferState :=
  { keep_secs := LOST_BUFFER_SECS, max_dist := MAX_REASSOC_DISTANCE,
    buffer := [(3, { features := [], positions := [(0, 0)], last_time := 100 }),
               (4, { features := [], positions := [(0, 0)], last_time := 100 })] }

/-- A buffer with a single good candidate, id 7. -/
def bufSingle : TrackletBufferState :=
  { keep_secs := LOST_BUFFER_SECS, max_dist := MAX_REASSOC_DISTANCE,
    buffer := [(7, { features := [], positions := [(0, 0)], last_time := 100 })] }

/-! ### Helper lemmas about the crossing state machine -/

/-- A track in the `FINALIZED` phase stays there and produces no event. -/
theorem processTrack_finalized (st : TrackState) (y : ℚ) (h : List Pos) (fi : Nat)
    (hf : st.phase = .FINALIZED) :
    (processTrack st y h fi).1 = none ∧ (processTrack st y h fi).2.phase = .FINALIZED := by
  obtain ⟨ph, a, b, c, d, e, f, g, p, q⟩ := st
  have hph : ph = Phase.FINALIZED := hf
  subst hph
  unfold processTrack
  split_ifs <;> exact ⟨rfl, rfl⟩

/-- When `processTrack` emits an event, the new phase is `FINALIZED`. -/
theorem processTrack_some_finalized (st : TrackState) (y : ℚ) (h : List Pos) (fi : Nat)
    (e : Event) (he : (processTrack st y h fi).1 = some e) :
    (processTrack st y h fi).2.phase = .FINALIZED := by
  obtain ⟨ph, a, b, c, d, e', f, g, p, q⟩ := st
  cases ph <;>
    · simp only [processTrack] at he ⊢
      split_ifs at he ⊢ <;> first | rfl | exact Option.noConfusion he

/-- When `processTrack` emits an event, its direction is the locked
approach direction: `entry` exactly when `approach_dir = 'up'`. -/
theorem processTrack_emit_direction (st : TrackState) (y : ℚ) (h : List Pos) (fi : Nat)
    (e : Event) (he : (processTrack st y h fi).1 = some e) :
    e = .entry ↔ st.approach_dir = some .up := by
  obtain ⟨ph, a, b, c, d, e', f, g, p, q⟩ := st
  cases ph <;>
    · simp only [processTrack] at he ⊢
      split_ifs at he ⊢ <;>
        first
          | exact Option.noConfusion he
          | (obtain rfl := Option.some.inj he; simp_all)

/-- The approach direction is only ever locked in the `DETECTED` state,
and only while the 5-frame window's median is on the matching start side
of the line with net movement toward the other side: `'up'` requires the
median below the line (`> LINE1`) and upward movement, `'down'` the
mirror image.  Every other step preserves the direction. -/
theorem processTrack_dir_set (st : TrackState) (y : ℚ) (h : List Pos) (fi : Nat) :
    (processTrack st y h fi).2.approach_dir = st.approach_dir ∨
    ((processTrack st y h fi).2.approach_dir = some .up ∧
      movement_vector (lastN DETECTED_MIN_FRAMES h) < 0 ∧
      medianYs (lastN DETECTED_MIN_FRAMES h) > LINE1) ∨
    ((processTrack st y h fi).2.approach_dir = some .down ∧
      movement_vector (lastN DETECTED_MIN_FRAMES h) > 0 ∧
      medianYs (lastN DETECTED_MIN_FRAMES h) < LINE1) := by
  obtain ⟨ph, a, b, c, d, e', f, g, p, q⟩ := st
  cases ph with
  | DETECTED =>
      simp only [processTrack]
      split_ifs with hfin hlen habs hup hdown
      · left; rfl
      · right; left; exact ⟨rfl, hup.1, hup.2⟩
      · right; right; exact ⟨rfl, hdown.1, hdown.2⟩
      · left; rfl
      · left; rfl
      · left; rfl
  | APPROACHING =>
      simp only [processTrack]
      split_ifs <;> (left; rfl)
  | ARMED =>
      simp only [processTrack]
      split_ifs <;> (left; rfl)
  | CROSSED =>
      simp only [processTrack]
      split_ifs <;> (left; rfl)
  | FINALIZED =>
      simp only [processTrack]
      split_ifs <;> (left; rfl)

/-- When `process` emits an event, the track's stored phase is `FINALIZED`. -/
theorem process_emits_finalized (em : EMState) (id : Nat) (y : ℚ) (h : List Pos) (fi : Nat)
    (e : Event) (he : (process em id y h fi).1 = some e) :
    ∃ st, (process em id y h fi).2 id = some st ∧ st.phase = .FINALIZED := by
  unfold process at he ⊢
  refine ⟨_, ?_, processTrack_some_finalized _ _ _ _ _ he⟩
  simp [EMState.set]

/-- A `FINALIZED` track makes `process` return `None` and stay `FINALIZED`. -/
theorem process_finalized_none (em : EMState) (id : Nat) (y : ℚ) (h : List Pos) (fi : Nat)
    (st : TrackState) (hst : em id = some st) (hf : st.phase = .FINALIZED) :
    (process em id y h fi).1 = none ∧
      ∃ st', (process em id y h fi).2 id = some st' ∧ st'.phase = .FINALIZED := by
  unfold process
  rw [hst]
  have hf2 : ({ st with last_seen := fi } : TrackState).phase = .FINALIZED := hf
  obtain ⟨h1, h2⟩ := processTrack_finalized { st with last_seen := fi } y h fi hf2
  exact ⟨h1, _, by simp [EMState.set], h2⟩

/-- The `process` touches only the observed id's state. -/
theorem process_other_id (em : EMState) (id id' : Nat) (hne : id' ≠ id)
    (y : ℚ) (h : List Pos) (fi : Nat) :
    (process em id y h fi).2 id' = em id' := by
  unfold process EMState.set
  simp [hne]

/-- Once a track is `FINALIZED`, no later observation of it emits an event. -/
theorem emitCount_zero_of_finalized (l : List Obs) :
    ∀ (em : EMState) (id : Nat) (st : TrackState),
      em id = some st → st.phase = .FINALIZED → emitCount em l id = 0 := by
  induction l with
  | nil => intro em id st _ _; rfl
  | cons o rest ih =>
      intro em id st h1 h2
      by_cases hid : o.id = id
      · subst hid
        obtain ⟨hnone, st', hst', hf'⟩ :=
          process_finalized_none em o.id o.center_y o.hist o.frame_idx st h1 h2
        simp only [emitCount, hnone, Option.isSome_none, Bool.false_eq_true, and_false,
          if_false, Nat.zero_add]
        exact ih _ _ _ hst' hf'
      · have hpres := process_other_id em o.id id (fun he => hid he.symm) o.center_y o.hist o.frame_idx
        simp only [emitCount, hid, false_and, if_false, Nat.zero_add]
        exact ih _ _ _ (hpres.trans h1) h2

/-- Over any observation sequence, `process` emits at most one event per id. -/
theorem emitCount_le_one (l : List Obs) : ∀ (em : EMState) (id : Nat), emitCount em l id ≤ 1 := by
  induction l with
  | nil => intro em id; exact Nat.zero_le 1
  | cons o rest ih =>
      intro em id
      by_cases hc : o.id = id ∧ ((process em o.id o.center_y o.hist o.frame_idx).1).isSome
      · obtain ⟨hoid, hsome⟩ := hc
        obtain ⟨e, he⟩ := Option.isSome_iff_exists.mp hsome
        obtain ⟨st, hst, hf⟩ :=
          process_emits_finalized em o.id o.center_y o.hist o.frame_idx e he
        subst hoid
        have hz := emitCount_zero_of_finalized rest _ o.id st hst hf
        simp only [emitCount, hsome, and_true, hz]
        simp
      · simp only [emitCount, if_neg hc, Nat.zero_add]
        exact ih _ _


/-! ### Helper lemmas about the counting loop -/

/-- A detection outside the line's x-range changes nothing. -/
theorem applyDetection_gate_neg (s : SysState) (d : Detection)
    (hg : ¬ (LINE0 < d.cx ∧ d.cx < LINE2)) : applyDetection s d = s := by
  unfold applyDetection
  rw [if_neg hg]

/-- When `process` returns `None`, only the event-manager state changes. -/
theorem applyDetection_none (s : SysState) (d : Detection)
    (hg : LINE0 < d.cx ∧ d.cx < LINE2)
    (hp : (process s.em d.track_id d.cy d.hist d.frame_idx).1 = none) :
    applyDetection s d =
      { s with em := (process s.em d.track_id d.cy d.hist d.frame_idx).2 } := by
  unfold applyDetection
  rw [if_pos hg]
  simp only [hp]

/-- During warm-up an emitted event only updates the event-manager state. -/
theorem applyDetection_warm (s : SysState) (d : Detection) (evt : Event)
    (hg : LINE0 < d.cx ∧ d.cx < LINE2)
    (hp : (process s.em d.track_id d.cy d.hist d.frame_idx).1 = some evt)
    (hw : d.now < s.warmup_end) :
    applyDetection s d =
      { s with em := (process s.em d.track_id d.cy d.hist d.frame_idx).2 } := by
  unfold applyDetection
  rw [if_pos hg]
  simp only [hp]
  rw [if_pos hw]

/-- While frozen an emitted event only updates the event-manager state. -/
theorem applyDetection_frozen (s : SysState) (d : Detection) (evt : Event)
    (hg : LINE0 < d.cx ∧ d.cx < LINE2)
    (hp : (process s.em d.track_id d.cy d.hist d.frame_idx).1 = some evt)
    (hw : ¬ d.now < s.warmup_end) (hf : s.frozen = true) :
    applyDetection s d =
      { s with em := (process s.em d.track_id d.cy d.hist d.frame_idx).2 } := by
  unfold applyDetection
  rw [if_pos hg]
  simp only [hp]
  rw [if_neg hw, if_pos hf]

/-- Outside warm-up and freeze, an emitted event runs the guarded ledger
mutation followed by the freeze check. -/
theorem applyDetection_count (s : SysState) (d : Detection) (evt : Event)
    (hg : LINE0 < d.cx ∧ d.cx < LINE2)
    (hp : (process s.em d.track_id d.cy d.hist d.frame_idx).1 = some evt)
    (hw : ¬ d.now < s.warmup_end) (hf : s.frozen = false) :
    applyDetection s d =
      freezeCheck
        (applyEventCount s (process s.em d.track_id d.cy d.hist d.frame_idx).2
          d.track_id evt) := by
  unfold applyDetection
  rw [if_pos hg]
  simp only [hp]
  rw [if_neg hw, if_neg (by simp [hf])]

/-- The `check_admin_commands` keeps the occupancy in `[0, MAX_CAPACITY]`. -/
theorem check_admin_occ_range (cmd : Option AdminCmd) (now : ℚ)
    (occ ent ex : Int) (fr : Bool) (h0 : 0 ≤ occ) (h1 : occ ≤ MAX_CAPACITY) :
    0 ≤ (check_admin_commands cmd now occ ent ex fr).1 ∧
      (check_admin_commands cmd now occ ent ex fr).1 ≤ MAX_CAPACITY := by
  unfold MAX_CAPACITY at *
  cases cmd with
  | none => exact ⟨h0, h1⟩
  | some c =>
      simp only [check_admin_commands, MAX_CAPACITY]
      split_ifs <;> constructor <;> omega

/-- The `freezeCheck` only touches the `frozen` flag. -/
theorem freezeCheck_fields (s : SysState) :
    (freezeCheck s).occupancy = s.occupancy ∧ (freezeCheck s).entry_count = s.entry_count ∧
      (freezeCheck s).exit_count = s.exit_count ∧ (freezeCheck s).counted = s.counted ∧
      (freezeCheck s).em = s.em := by
  unfold freezeCheck
  split_ifs <;> exact ⟨rfl, rfl, rfl, rfl, rfl⟩

/-- The ledger mutation keeps the occupancy in `[0, MAX_CAPACITY]`. -/
theorem applyEventCount_occ_range (s : SysState) (em2 : EMState) (id : Nat) (evt : Event)
    (h0 : 0 ≤ s.occupancy) (h1 : s.occupancy ≤ MAX_CAPACITY) :
    0 ≤ (applyEventCount s em2 id evt).occupancy ∧
      (applyEventCount s em2 id evt).occupancy ≤ MAX_CAPACITY := by
  cases evt <;>
    · unfold applyEventCount
      unfold MAX_CAPACITY at *
      split_ifs <;> dsimp only <;> omega

/-- Every loop operation keeps the occupancy in `[0, MAX_CAPACITY]`. -/
theorem applyStep_occ_range (s : SysState) (l : LoopStep)
    (h0 : 0 ≤ s.occupancy) (h1 : s.occupancy ≤ MAX_CAPACITY) :
    0 ≤ (applyStep s l).occupancy ∧ (applyStep s l).occupancy ≤ MAX_CAPACITY := by
  cases l with
  | admin cmd now =>
      simp only [applyStep]
      exact check_admin_occ_range cmd now s.occupancy s.entry_count s.exit_count s.frozen h0 h1
  | persist => exact ⟨h0, h1⟩
  | manualReset =>
      constructor <;> simp [applyStep, MAX_CAPACITY]
  | manualSet v =>
      simp only [applyStep]
      unfold MAX_CAPACITY at *
      constructor <;> dsimp only <;> omega
  | detect d =>
      show 0 ≤ (applyDetection s d).occupancy ∧ (applyDetection s d).occupancy ≤ MAX_CAPACITY
      by_cases hg : LINE0 < d.cx ∧ d.cx < LINE2
      · cases hp : (process s.em d.track_id d.cy d.hist d.frame_idx).1 with
        | none => rw [applyDetection_none s d hg hp]; exact ⟨h0, h1⟩
        | some evt =>
            by_cases hw : d.now < s.warmup_end
            · rw [applyDetection_warm s d evt hg hp hw]; exact ⟨h0, h1⟩
            · cases hf : s.frozen with
              | true => rw [applyDetection_frozen s d evt hg hp hw hf]; exact ⟨h0, h1⟩
              | false =>
                  rw [applyDetection_count s d evt hg hp hw hf]
                  rw [(freezeCheck_fields _).1]
                  exact applyEventCount_occ_range s _ d.track_id evt h0 h1
      · rw [applyDetection_gate_neg s d hg]; exact ⟨h0, h1⟩

/-- A `countedAdd` never clears the entry flag. -/
theorem countedAdd_entry_mono (f : Nat → CountedSet) (tid : Nat) (e : Event) (i : Nat)
    (h : (f i).entry = true) : (countedAdd f tid e i).entry = true := by
  unfold countedAdd
  by_cases hid : i = tid
  · subst hid; cases e <;> simp [h]
  · simp [hid, h]

/-- A `countedAdd` never clears the exit flag. -/
theorem countedAdd_exit_mono (f : Nat → CountedSet) (tid : Nat) (e : Event) (i : Nat)
    (h : (f i).exit = true) : (countedAdd f tid e i).exit = true := by
  unfold countedAdd
  by_cases hid : i = tid
  · subst hid; cases e <;> simp [h]
  · simp [hid, h]

/-- The ledger mutation either leaves `entry_count` and the id's counted
entry flag alone, or performs the one guarded entry increment, which
requires the flag to be clear and sets it. -/
theorem applyEventCount_entry_cases (s : SysState) (em2 : EMState) (id : Nat) (evt : Event) :
    ((applyEventCount s em2 id evt).entry_count = s.entry_count ∧
      ((applyEventCount s em2 id evt).counted id).entry = (s.counted id).entry) ∨
    ((s.counted id).entry = false ∧
      ((applyEventCount s em2 id evt).counted id).entry = true ∧
      (applyEventCount s em2 id evt).entry_count = s.entry_count + 1) := by
  cases evt with
  | entry =>
      unfold applyEventCount
      by_cases hce : (s.counted id).entry = false
      · rw [if_pos hce]
        by_cases hocc : s.occupancy < MAX_CAPACITY
        · rw [if_pos hocc]
          right
          refine ⟨hce, ?_, rfl⟩
          show (countedAdd s.counted id .entry id).entry = true
          simp [countedAdd]
        · rw [if_neg hocc]; left; exact ⟨rfl, rfl⟩
      · rw [if_neg hce]; left; exact ⟨rfl, rfl⟩
  | exit =>
      unfold applyEventCount
      by_cases hce : (s.counted id).exit = false
      · rw [if_pos hce]
        left
        refine ⟨rfl, ?_⟩
        show (countedAdd s.counted id .exit id).entry = (s.counted id).entry
        simp [countedAdd]
      · rw [if_neg hce]; left; exact ⟨rfl, rfl⟩

/-- Mirror image of `applyEventCount_entry_cases` for exits. -/
theorem applyEventCount_exit_cases (s : SysState) (em2 : EMState) (id : Nat) (evt : Event) :
    ((applyEventCount s em2 id evt).exit_count = s.exit_count ∧
      ((applyEventCount s em2 id evt).counted id).exit = (s.counted id).exit) ∨
    ((s.counted id).exit = false ∧
      ((applyEventCount s em2 id evt).counted id).exit = true ∧
      (applyEventCount s em2 id evt).exit_count = s.exit_count + 1) := by
  cases evt with
  | exit =>
      unfold applyEventCount
      by_cases hce : (s.counted id).exit = false
      · rw [if_pos hce]
        right
        refine ⟨hce, ?_, rfl⟩
        show (countedAdd s.counted id .exit id).exit = true
        simp [countedAdd]
      · rw [if_neg hce]; left; exact ⟨rfl, rfl⟩
  | entry =>
      unfold applyEventCount
      by_cases hce : (s.counted id).entry = false
      · rw [if_pos hce]
        by_cases hocc : s.occupancy < MAX_CAPACITY
        · rw [if_pos hocc]
          left
          refine ⟨rfl, ?_⟩
          show (countedAdd s.counted id .entry id).exit = (s.counted id).exit
          simp [countedAdd]
        · rw [if_neg hocc]; left; exact ⟨rfl, rfl⟩
      · rw [if_neg hce]; left; exact ⟨rfl, rfl⟩

/-- One detection either leaves `entry_count` and the id's counted entry
flag alone, or performs the one guarded increment that sets the flag. -/
theorem applyDetection_entry_cases (s : SysState) (d : Detection) :
    ((applyDetection s d).entry_count = s.entry_count ∧
      ((applyDetection s d).counted d.track_id).entry = (s.counted d.track_id).entry) ∨
    ((s.counted d.track_id).entry = false ∧
      ((applyDetection s d).counted d.track_id).entry = true ∧
      (applyDetection s d).entry_count = s.entry_count + 1) := by
  by_cases hg : LINE0 < d.cx ∧ d.cx < LINE2
  · cases hp : (process s.em d.track_id d.cy d.hist d.frame_idx).1 with
    | none => rw [applyDetection_none s d hg hp]; left; exact ⟨rfl, rfl⟩
    | some evt =>
        by_cases hw : d.now < s.warmup_end
        · rw [applyDetection_warm s d evt hg hp hw]; left; exact ⟨rfl, rfl⟩
        · cases hf : s.frozen with
          | true => rw [applyDetection_frozen s d evt hg hp hw hf]; left; exact ⟨rfl, rfl⟩
          | false =>
              rw [applyDetection_count s d evt hg hp hw hf]
              have hfc := freezeCheck_fields
                (applyEventCount s (process s.em d.track_id d.cy d.hist d.frame_idx).2
                  d.track_id evt)
              rw [hfc.2.1, hfc.2.2.2.1]
              exact applyEventCount_entry_cases s _ d.track_id evt
  · rw [applyDetection_gate_neg s d hg]; left; exact ⟨rfl, rfl⟩

/-- Mirror image of `applyDetection_entry_cases` for exits. -/
theorem applyDetection_exit_cases (s : SysState) (d : Detection) :
    ((applyDetection s d).exit_count = s.exit_count ∧
      ((applyDetection s d).counted d.track_id).exit = (s.counted d.track_id).exit) ∨
    ((s.counted d.track_id).exit = false ∧
      ((applyDetection s d).counted d.track_id).exit = true ∧
      (applyDetection s d).exit_count = s.exit_count + 1) := by
  by_cases hg : LINE0 < d.cx ∧ d.cx < LINE2
  · cases hp : (process s.em d.track_id d.cy d.hist d.frame_idx).1 with
    | none => rw [applyDetection_none s d hg hp]; left; exact ⟨rfl, rfl⟩
    | some evt =>
        by_cases hw : d.now < s.warmup_end
        · rw [applyDetection_warm s d evt hg hp hw]; left; exact ⟨rfl, rfl⟩
        · cases hf : s.frozen with
          | true => rw [applyDetection_frozen s d evt hg hp hw hf]; left; exact ⟨rfl, rfl⟩
          | false =>
              rw [applyDetection_count s d evt hg hp hw hf]
              have hfc := freezeCheck_fields
                (applyEventCount s (process s.em d.track_id d.cy d.hist d.frame_idx).2
                  d.track_id evt)
              rw [hfc.2.2.1, hfc.2.2.2.1]
              exact applyEventCount_exit_cases s _ d.track_id evt
  · rw [applyDetection_gate_neg s d hg]; left; exact ⟨rfl, rfl⟩

/-- Counted flags are never cleared by any loop operation. -/
theorem applyStep_counted_mono (s : SysState) (l : LoopStep) (id : Nat) :
    ((s.counted id).entry = true → ((applyStep s l).counted id).entry = true) ∧
      ((s.counted id).exit = true → ((applyStep s l).counted id).exit = true) := by
  cases l with
  | admin cmd now => exact ⟨fun h => h, fun h => h⟩
  | persist => exact ⟨fun h => h, fun h => h⟩
  | manualReset => exact ⟨fun h => h, fun h => h⟩
  | manualSet v => exact ⟨fun h => h, fun h => h⟩
  | detect d =>
      show ((s.counted id).entry = true → ((applyDetection s d).counted id).entry = true) ∧
        ((s.counted id).exit = true → ((applyDetection s d).counted id).exit = true)
      by_cases hg : LINE0 < d.cx ∧ d.cx < LINE2
      · cases hp : (process s.em d.track_id d.cy d.hist d.frame_idx).1 with
        | none => rw [applyDetection_none s d hg hp]; exact ⟨fun h => h, fun h => h⟩
        | some evt =>
            by_cases hw : d.now < s.warmup_end
            · rw [applyDetection_warm s d evt hg hp hw]; exact ⟨fun h => h, fun h => h⟩
            · cases hf : s.frozen with
              | true =>
                  rw [applyDetection_frozen s d evt hg hp hw hf]
                  exact ⟨fun h => h, fun h => h⟩
              | false =>
                  rw [applyDetection_count s d evt hg hp hw hf]
                  have hfc := freezeCheck_fields
                    (applyEventCount s (process s.em d.track_id d.cy d.hist d.frame_idx).2
                      d.track_id evt)
                  rw [hfc.2.2.2.1]
                  constructor <;> intro h <;>
                    · cases evt <;> unfold applyEventCount <;> split_ifs <;>
                        first
                          | exact h
                          | exact countedAdd_entry_mono s.counted d.track_id _ id h
                          | exact countedAdd_exit_mono s.counted d.track_id _ id h
      · rw [applyDetection_gate_neg s d hg]; exact ⟨fun h => h, fun h => h⟩

/-- When the id's entry is already counted, a detection of it never
changes `entry_count`. -/
theorem applyDetection_entry_count_eq (s : SysState) (d : Detection)
    (h : (s.counted d.track_id).entry = true) :
    (applyDetection s d).entry_count = s.entry_count := by
  rcases applyDetection_entry_cases s d with ⟨heq, -⟩ | ⟨hfalse, -, -⟩
  · exact heq
  · rw [h] at hfalse; exact Bool.noConfusion hfalse

/-- When the id's exit is already counted, a detection of it never
changes `exit_count`. -/
theorem applyDetection_exit_count_eq (s : SysState) (d : Detection)
    (h : (s.counted d.track_id).exit = true) :
    (applyDetection s d).exit_count = s.exit_count := by
  rcases applyDetection_exit_cases s d with ⟨heq, -⟩ | ⟨hfalse, -, -⟩
  · exact heq
  · rw [h] at hfalse; exact Bool.noConfusion hfalse

/-- Once the entry is in the counted set, no later step increments
`entry_count` for that id. -/
theorem entryIncrCount_zero_of_counted (l : List LoopStep) :
    ∀ (s : SysState) (id : Nat), (s.counted id).entry = true → entryIncrCount s l id = 0 := by
  induction l with
  | nil => intro s id _; rfl
  | cons st rest ih =>
      intro s id h
      have hmono := (applyStep_counted_mono s st id).1 h
      have hrest := ih (applyStep s st) id hmono
      cases st with
      | admin cmd now => simpa [entryIncrCount] using hrest
      | persist => simpa [entryIncrCount] using hrest
      | manualReset => simpa [entryIncrCount] using hrest
      | manualSet v => simpa [entryIncrCount] using hrest
      | detect d =>
          simp only [entryIncrCount, hrest, Nat.add_zero]
          rw [if_neg]
          rintro ⟨hid, hinc⟩
          subst hid
          have heq : (applyStep s (.detect d)).entry_count = s.entry_count :=
            applyDetection_entry_count_eq s d h
          rw [heq] at hinc
          omega

/-- Once the exit is in the counted set, no later step increments
`exit_count` for that id. -/
theorem exitIncrCount_zero_of_counted (l : List LoopStep) :
    ∀ (s : SysState) (id : Nat), (s.counted id).exit = true → exitIncrCount s l id = 0 := by
  induction l with
  | nil => intro s id _; rfl
  | cons st rest ih =>
      intro s id h
      have hmono := (applyStep_counted_mono s st id).2 h
      have hrest := ih (applyStep s st) id hmono
      cases st with
      | admin cmd now => simpa [exitIncrCount] using hrest
      | persist => simpa [exitIncrCount] using hrest
      | manualReset => simpa [exitIncrCount] using hrest
      | manualSet v => simpa [exitIncrCount] using hrest
      | detect d =>
          simp only [exitIncrCount, hrest, Nat.add_zero]
          rw [if_neg]
          rintro ⟨hid, hinc⟩
          subst hid
          have heq : (applyStep s (.detect d)).exit_count = s.exit_count :=
            applyDetection_exit_count_eq s d h
          rw [heq] at hinc
          omega

/-- Along any run, `entry_count` is incremented at most once per id. -/
theorem entryIncrCount_le_one (l : List LoopStep) :
    ∀ (s : SysState) (id : Nat), entryIncrCount s l id ≤ 1 := by
  induction l with
  | nil => intro s id; exact Nat.zero_le 1
  | cons st rest ih =>
      intro s id
      cases st with
      | admin cmd now => simpa [entryIncrCount] using ih _ id
      | persist => simpa [entryIncrCount] using ih _ id
      | manualReset => simpa [entryIncrCount] using ih _ id
      | manualSet v => simpa [entryIncrCount] using ih _ id
      | detect d =>
          by_cases hc : d.track_id = id ∧ (applyStep s (.detect d)).entry_count = s.entry_count + 1
          · obtain ⟨hid, hinc⟩ := hc
            rcases applyDetection_entry_cases s d with ⟨heq, -⟩ | ⟨-, hcounted, -⟩
            · exfalso
              have heq2 : (applyStep s (.detect d)).entry_count = s.entry_count := heq
              omega
            · subst hid
              have hz := entryIncrCount_zero_of_counted rest (applyStep s (.detect d))
                d.track_id hcounted
              simp [entryIncrCount, hz, hinc]
          · simp only [entryIncrCount, if_neg hc, Nat.zero_add]
            exact ih _ id

/-- Along any run, `exit_count` is incremented at most once per id. -/
theorem exitIncrCount_le_one (l : List LoopStep) :
    ∀ (s : SysState) (id : Nat), exitIncrCount s l id ≤ 1 := by
  induction l with
  | nil => intro s id; exact Nat.zero_le 1
  | cons st rest ih =>
      intro s id
      cases st with
      | admin cmd now => simpa [exitIncrCount] using ih _ id
      | persist => simpa [exitIncrCount] using ih _ id
      | manualReset => simpa [exitIncrCount] using ih _ id
      | manualSet v => simpa [exitIncrCount] using ih _ id
      | detect d =>
          by_cases hc : d.track_id = id ∧ (applyStep s (.detect d)).exit_count = s.exit_count + 1
          · obtain ⟨hid, hinc⟩ := hc
            rcases applyDetection_exit_cases s d with ⟨heq, -⟩ | ⟨-, hcounted, -⟩
            · exfalso
              have heq2 : (applyStep s (.detect d)).exit_count = s.exit_count := heq
              omega
            · subst hid
              have hz := exitIncrCount_zero_of_counted rest (applyStep s (.detect d))
                d.track_id hcounted
              simp [exitIncrCount, hz, hinc]
          · simp only [exitIncrCount, if_neg hc, Nat.zero_add]
            exact ih _ id

/-- The ledger mutation leaves other ids' counted sets alone. -/
theorem applyEventCount_counted_other (s : SysState) (em2 : EMState) (tid : Nat) (evt : Event)
    (i : Nat) (hne : i ≠ tid) :
    (applyEventCount s em2 tid evt).counted i = s.counted i := by
  cases evt <;> unfold applyEventCount <;> split_ifs <;> simp [countedAdd, hne]

/-- Once an id's track is `FINALIZED`, any loop operation leaves that id's
counted set alone and keeps the track `FINALIZED`. -/
theorem applyStep_preserves_finalized (s : SysState) (l : LoopStep) (id : Nat)
    (h : ∃ st, s.em id = some st ∧ st.phase = .FINALIZED) :
    (applyStep s l).counted id = s.counted id ∧
      ∃ st', (applyStep s l).em id = some st' ∧ st'.phase = .FINALIZED := by
  obtain ⟨st, hst, hf⟩ := h
  cases l with
  | admin cmd now => exact ⟨rfl, st, hst, hf⟩
  | persist => exact ⟨rfl, st, hst, hf⟩
  | manualReset => exact ⟨rfl, st, hst, hf⟩
  | manualSet v => exact ⟨rfl, st, hst, hf⟩
  | detect d =>
      show (applyDetection s d).counted id = s.counted id ∧
        ∃ st', (applyDetection s d).em id = some st' ∧ st'.phase = .FINALIZED
      by_cases hg : LINE0 < d.cx ∧ d.cx < LINE2
      · by_cases hid : d.track_id = id
        · subst hid
          obtain ⟨hnone, st', hst', hf'⟩ :=
            process_finalized_none s.em d.track_id d.cy d.hist d.frame_idx st hst hf
          rw [applyDetection_none s d hg hnone]
          exact ⟨rfl, st', hst', hf'⟩
        · have hne : id ≠ d.track_id := fun he => hid he.symm
          have hpres : (process s.em d.track_id d.cy d.hist d.frame_idx).2 id = s.em id :=
            process_other_id s.em d.track_id id hne d.cy d.hist d.frame_idx
          cases hp : (process s.em d.track_id d.cy d.hist d.frame_idx).1 with
          | none =>
              rw [applyDetection_none s d hg hp]
              exact ⟨rfl, st, hpres.trans hst, hf⟩
          | some evt =>
              by_cases hw : d.now < s.warmup_end
              · rw [applyDetection_warm s d evt hg hp hw]
                exact ⟨rfl, st, hpres.trans hst, hf⟩
              · cases hfz : s.frozen with
                | true =>
                    rw [applyDetection_frozen s d evt hg hp hw hfz]
                    exact ⟨rfl, st, hpres.trans hst, hf⟩
                | false =>
                    rw [applyDetection_count s d evt hg hp hw hfz]
                    have hfc := freezeCheck_fields
                      (applyEventCount s (process s.em d.track_id d.cy d.hist d.frame_idx).2
                        d.track_id evt)
                    constructor
                    · rw [hfc.2.2.2.1]
                      exact applyEventCount_counted_other s _ d.track_id evt id hne
                    · refine ⟨st, ?_, hf⟩
                      rw [hfc.2.2.2.2]
                      have hem : (applyEventCount s
                          (process s.em d.track_id d.cy d.hist d.frame_idx).2
                          d.track_id evt).em =
                          (process s.em d.track_id d.cy d.hist d.frame_idx).2 := by
                        cases evt <;> unfold applyEventCount <;> split_ifs <;> rfl
                      rw [hem]
                      exact hpres.trans hst
      · rw [applyDetection_gate_neg s d hg]
        exact ⟨rfl, st, hst, hf⟩

/-- Once an id's track is `FINALIZED`, its counted set never changes again
over any continuation of the run. -/
theorem runSteps_preserves_finalized (l : List LoopStep) :
    ∀ (s : SysState) (id : Nat), (∃ st, s.em id = some st ∧ st.phase = .FINALIZED) →
      (runSteps s l).counted id = s.counted id ∧
        ∃ st', (runSteps s l).em id = some st' ∧ st'.phase = .FINALIZED := by
  induction l with
  | nil => intro s id h; exact ⟨rfl, h⟩
  | cons st rest ih =>
      intro s id h
      obtain ⟨hc, hfin⟩ := applyStep_preserves_finalized s st id h
      obtain ⟨hc2, hfin2⟩ := ih (applyStep s st) id hfin
      exact ⟨hc2.trans hc, hfin2⟩

unseal Rat.add Rat.sub Rat.mul Rat.inv Rat.ofScientific

/-! ### Claim theorems -/

/-- C1: for every reachable state of the counting loop (any sequence of
detections, finalized crossing events, admin commands, persistence
operations and manual overrides, starting from a loaded snapshot), the
occupancy satisfies `0 ≤ occupancy ≤ MAX_CAPACITY`; consequently any
violation (there is none) forces `frozen = true`. -/
theorem claim1_occupancy_invariant (s : SysState) (h : Reachable s) :
    (0 ≤ s.occupancy ∧ s.occupancy ≤ MAX_CAPACITY) ∧
      (¬ (0 ≤ s.occupancy ∧ s.occupancy ≤ MAX_CAPACITY) → s.frozen = true) := by
  have hrange : 0 ≤ s.occupancy ∧ s.occupancy ≤ MAX_CAPACITY := by
    induction h with
    | init rawOcc ent ex wend =>
        simp only [initState, load_occupancy_clamp, MAX_CAPACITY]
        split_ifs <;> constructor <;> omega
    | step s' l _ ih => exact applyStep_occ_range s' l ih.1 ih.2
  exact ⟨hrange, fun hn => absurd hrange hn⟩

/-- Witness for C1 at a concrete loaded snapshot (persisted occupancy 999). -/
theorem claim1_occupancy_invariant_witness :
    (0 ≤ (initState 999 0 0 0).occupancy ∧ (initState 999 0 0 0).occupancy ≤ MAX_CAPACITY) ∧
      (¬ (0 ≤ (initState 999 0 0 0).occupancy ∧
          (initState 999 0 0 0).occupancy ≤ MAX_CAPACITY) →
        (initState 999 0 0 0).frozen = true) :=
  claim1_occupancy_invariant (initState 999 0 0 0) (Reachable.init 999 0 0 0)

/-- C2: along any run of loop operations, `entry_count` is incremented at
most once per canonical id and `exit_count` at most once per canonical id;
and once a direction is recorded in the id's counted set, no later
observation increments that direction's counter for that id again. -/
theorem claim2_counting_idempotent (s : SysState) (l : List LoopStep) (id : Nat) :
    (entryIncrCount s l id ≤ 1 ∧ exitIncrCount s l id ≤ 1) ∧
      ((s.counted id).entry = true → entryIncrCount s l id = 0) ∧
      ((s.counted id).exit = true → exitIncrCount s l id = 0) :=
  ⟨⟨entryIncrCount_le_one l s id, exitIncrCount_le_one l s id⟩,
   fun h => entryIncrCount_zero_of_counted l s id h,
   fun h => exitIncrCount_zero_of_counted l s id h⟩

/-- Witness for C2 at a concrete state and run. -/
theorem claim2_counting_idempotent_witness :
    (entryIncrCount sysCounted [] 0 ≤ 1 ∧ exitIncrCount sysCounted [] 0 ≤ 1) ∧
      entryIncrCount sysCounted [] 0 = 0 ∧ exitIncrCount sysCounted [] 0 = 0 :=
  ⟨(claim2_counting_idempotent sysCounted [] 0).1,
   (claim2_counting_idempotent sysCounted [] 0).2.1 rfl,
   (claim2_counting_idempotent sysCounted [] 0).2.2 rfl⟩

/-- C3 (amended): the crossing state machine emits at most one non-None
event per id over any observation sequence.  When it emits an event, the
direction is the locked approach direction (`entry` iff
`approach_dir = 'up'`), and an approach direction is only ever locked
while the 5-frame window's median is on the matching start side of the
line with net movement toward the other side (up: median below the line,
moving up; down: the mirror image) — so an emitted event's direction
corresponds to the A-to-B side the track approached from.  The concrete
gradual monotone tracks `entryYs` (below-to-above) and `exitYs`
(above-to-below) each yield exactly one event of the corresponding
direction; a monotone A-to-B track sustaining displacement at least
`MIN_DISPLACEMENT` for `CONFIRM_FRAMES` far-side frames may nevertheless
yield zero events. -/
theorem claim3_directional_correctness_amended :
    (∀ (em : EMState) (l : List Obs) (id : Nat), emitCount em l id ≤ 1) ∧
      (∀ (st : TrackState) (y : ℚ) (h : List Pos) (fi : Nat) (e : Event),
        (processTrack st y h fi).1 = some e → (e = .entry ↔ st.approach_dir = some .up)) ∧
      (∀ (st : TrackState) (y : ℚ) (h : List Pos) (fi : Nat),
        (processTrack st y h fi).2.approach_dir = st.approach_dir ∨
        ((processTrack st y h fi).2.approach_dir = some .up ∧
          movement_vector (lastN DETECTED_MIN_FRAMES h) < 0 ∧
          medianYs (lastN DETECTED_MIN_FRAMES h) > LINE1) ∨
        ((processTrack st y h fi).2.approach_dir = some .down ∧
          movement_vector (lastN DETECTED_MIN_FRAMES h) > 0 ∧
          medianYs (lastN DETECTED_MIN_FRAMES h) < LINE1)) ∧
      runEvents emEmpty (mkRun 1 entryYs) = List.replicate 13 none ++ [some .entry] ∧
      runEvents emEmpty (mkRun 1 exitYs) = List.replicate 13 none ++ [some .exit] := by
  refine ⟨fun em l id => emitCount_le_one l em id,
    fun st y h fi e he => processTrack_emit_direction st y h fi e he,
    fun st y h fi => processTrack_dir_set st y h fi, ?_, ?_⟩ <;> decide

/-- Witness for C3 (amended): the direction-correctness conjunct applied
to a concrete state one confirming frame before finalizing an entry. -/
theorem claim3_directional_correctness_amended_witness :
    (Event.entry = Event.entry ↔ stCrossedUp.approach_dir = some ApproachDir.up) ∧
      emitCount emEmpty (mkRun 1 entryYs) 1 ≤ 1 :=
  ⟨claim3_directional_correctness_amended.2.1 stCrossedUp 300 [(500, 330), (500, 300)] 20
      Event.entry (by decide),
   claim3_directional_correctness_amended.1 emEmpty (mkRun 1 entryYs) 1⟩

/-- Counterexample for C3 as stated: `fastYs` is a strictly monotone
below-to-above track whose last `CONFIRM_FRAMES` positions all sit on the
far side at least `MIN_DISPLACEMENT` beyond the line, yet the state
machine emits no event at all for it (its 5-frame median is already past
the line once enough history exists, so `DETECTED` never resolves a
direction). -/
theorem claim3_fast_crossing_counterexample :
    strictlyDecr fastYs = true ∧ fastYs.headD 0 > LINE1 ∧
      (lastN CONFIRM_FRAMES fastYs).all (fun y => decide (y < LINE1)) = true ∧
      sustainedAboveDisplacement fastYs = true ∧
      runEvents emEmpty (mkRun 1 fastYs) = List.replicate 10 none := by
  refine ⟨?_, ?_, ?_, ?_, ?_⟩ <;> decide

/-- C4 (amended): once an id's track reaches `FINALIZED` for one
direction, every further observation of that id returns `None` — for the
finalized direction and the opposite direction alike — and the track
stays `FINALIZED`: the machine is terminal per id, so the opposite
direction cannot progress to an event afterwards. -/
theorem claim4_finalized_terminal (em : EMState) (id : Nat) (y : ℚ) (h : List Pos)
    (fi : Nat) (st : TrackState) (hst : em id = some st) (hf : st.phase = .FINALIZED) :
    (process em id y h fi).1 = none ∧
      ∃ st', (process em id y h fi).2 id = some st' ∧ st'.phase = .FINALIZED :=
  process_finalized_none em id y h fi st hst hf

/-- Witness for C4 (amended) at a concrete finalized state. -/
theorem claim4_finalized_terminal_witness :
    (process emFinalized 1 440 [(500, 410), (500, 440)] 15).1 = none ∧
      ∃ st', (process emFinalized 1 440 [(500, 410), (500, 440)] 15).2 1 = some st' ∧
        st'.phase = .FINALIZED :=
  claim4_finalized_terminal emFinalized 1 440 [(500, 410), (500, 440)] 15
    stFinalizedEntry rfl rfl

/-- Counterexample for C4 as stated: the above-to-below track `exitYs`
finalizes an `exit` when run on a fresh id, but when the same maneuver is
performed by id 1 after it finalized its `entry` (the run
`entryYs ++ exitYs`), the machine emits the entry and then returns `None`
on every later frame: the opposite direction never finalizes. -/
theorem claim4_opposite_direction_counterexample :
    (runEvents emEmpty (mkRun 1 exitYs)).count (some .exit) = 1 ∧
      (runEvents emEmpty (mkRun 1 (entryYs ++ exitYs))).count (some .entry) = 1 ∧
      (runEvents emEmpty (mkRun 1 (entryYs ++ exitYs))).count (some .exit) = 0 := by
  refine ⟨?_, ?_, ?_⟩ <;> decide

/-- C10: when `process` finalizes an event for an id but the ledger
refuses it (warm-up, frozen, or a full lot for an entry), the loop leaves
the id's counted set, both counters and the occupancy unchanged, the
track is `FINALIZED`, and the id's counted set never changes on any
continuation of the run: the event is permanently dropped. -/
theorem claim10_refused_event_dropped (s : SysState) (d : Detection) (evt : Event)
    (hg : LINE0 < d.cx ∧ d.cx < LINE2)
    (hp : (process s.em d.track_id d.cy d.hist d.frame_idx).1 = some evt)
    (hrefuse : d.now < s.warmup_end ∨ s.frozen = true ∨
      (evt = .entry ∧ ¬ s.occupancy < MAX_CAPACITY)) :
    ((applyStep s (.detect d)).counted d.track_id = s.counted d.track_id ∧
      (applyStep s (.detect d)).entry_count = s.entry_count ∧
      (applyStep s (.detect d)).exit_count = s.exit_count ∧
      (applyStep s (.detect d)).occupancy = s.occupancy) ∧
    (∃ st, (applyStep s (.detect d)).em d.track_id = some st ∧ st.phase = .FINALIZED) ∧
    ∀ rest : List LoopStep,
      (runSteps (applyStep s (.detect d)) rest).counted d.track_id = s.counted d.track_id := by
  obtain ⟨stf, hstf, hff⟩ :=
    process_emits_finalized s.em d.track_id d.cy d.hist d.frame_idx evt hp
  have heffect : (applyStep s (.detect d)).counted d.track_id = s.counted d.track_id ∧
      (applyStep s (.detect d)).entry_count = s.entry_count ∧
      (applyStep s (.detect d)).exit_count = s.exit_count ∧
      (applyStep s (.detect d)).occupancy = s.occupancy ∧
      (applyStep s (.detect d)).em = (process s.em d.track_id d.cy d.hist d.frame_idx).2 := by
    by_cases hw : d.now < s.warmup_end
    · have happ : applyStep s (.detect d) =
          { s with em := (process s.em d.track_id d.cy d.hist d.frame_idx).2 } :=
        applyDetection_warm s d evt hg hp hw
      rw [happ]
      exact ⟨rfl, rfl, rfl, rfl, rfl⟩
    · by_cases hfz : s.frozen = true
      · have happ : applyStep s (.detect d) =
            { s with em := (process s.em d.track_id d.cy d.hist d.frame_idx).2 } :=
          applyDetection_frozen s d evt hg hp hw hfz
        rw [happ]
        exact ⟨rfl, rfl, rfl, rfl, rfl⟩
      · have hfz2 : s.frozen = false := by
          cases hsf : s.frozen
          · rfl
          · exact absurd hsf hfz
        rcases hrefuse with hw2 | hf2 | ⟨hentry, hocc⟩
        · exact absurd hw2 hw
        · exact absurd hf2 hfz
        · subst hentry
          have hec : applyEventCount s
              (process s.em d.track_id d.cy d.hist d.frame_idx).2 d.track_id .entry =
              { s with em := (process s.em d.track_id d.cy d.hist d.frame_idx).2 } := by
            unfold applyEventCount
            by_cases hce : (s.counted d.track_id).entry = false
            · rw [if_pos hce, if_neg hocc]
            · rw [if_neg hce]
          have happ : applyStep s (.detect d) =
              freezeCheck
                { s with em := (process s.em d.track_id d.cy d.hist d.frame_idx).2 } := by
            have h1 : applyStep s (.detect d) = freezeCheck (applyEventCount s
                (process s.em d.track_id d.cy d.hist d.frame_idx).2 d.track_id .entry) :=
              applyDetection_count s d .entry hg hp hw hfz2
            rw [h1, hec]
          have hfc2 := freezeCheck_fields
            { s with em := (process s.em d.track_id d.cy d.hist d.frame_idx).2 }
          rw [happ]
          refine ⟨?_, ?_, ?_, ?_, ?_⟩
          · rw [hfc2.2.2.2.1]
          · rw [hfc2.2.1]
          · rw [hfc2.2.2.1]
          · rw [hfc2.1]
          · rw [hfc2.2.2.2.2]
  have hfin : ∃ st, (applyStep s (.detect d)).em d.track_id = some st ∧
      st.phase = .FINALIZED := ⟨stf, by rw [heffect.2.2.2.2]; exact hstf, hff⟩
  refine ⟨⟨heffect.1, heffect.2.1, heffect.2.2.1, heffect.2.2.2.1⟩, hfin, fun rest => ?_⟩
  obtain ⟨hc, -⟩ := runSteps_preserves_finalized rest (applyStep s (.detect d)) d.track_id hfin
  exact hc.trans heffect.1


/-- Witness for C10: an entry finalized during warm-up is dropped. -/
theorem claim10_refused_event_dropped_witness :
    ((applyStep sysWarm (.detect detWarm)).counted detWarm.track_id =
        sysWarm.counted detWarm.track_id ∧
      (applyStep sysWarm (.detect detWarm)).entry_count = sysWarm.entry_count ∧
      (applyStep sysWarm (.detect detWarm)).exit_count = sysWarm.exit_count ∧
      (applyStep sysWarm (.detect detWarm)).occupancy = sysWarm.occupancy) ∧
    (∃ st, (applyStep sysWarm (.detect detWarm)).em detWarm.track_id = some st ∧
      st.phase = .FINALIZED) ∧
    ∀ rest : List LoopStep,
      (runSteps (applyStep sysWarm (.detect detWarm)) rest).counted detWarm.track_id =
        sysWarm.counted detWarm.track_id :=
  claim10_refused_event_dropped sysWarm detWarm .entry (by decide) (by decide)
    (Or.inl (by decide))

/-- Looking up an id in a buffer it was erased from finds nothing. -/
theorem lookupRecord_eraseId (l : List (Nat × TrackletRecord)) (id : Nat) :
    lookupRecord (eraseId l id) id = none := by
  induction l with
  | nil => rfl
  | cons e rest ih =>
      unfold eraseId lookupRecord at ih ⊢
      by_cases h : e.1 = id
      · simpa [List.filter_cons, h] using ih
      · simpa [List.filter_cons, List.find?_cons, h] using ih

/-- C5: if `reassociate` builds two or more candidate scores and, after
the descending sort, the second-best score is at least 85% of the best,
it returns none; and whenever it returns an id, that id's entry has been
removed from the buffer, so the entry can be consumed at most once. -/
theorem claim5_reassociate_ambiguity_and_consumption (b : TrackletBufferState)
    (dist : Pos → Pos → ℚ) (start_pos : Pos) (now : ℚ) :
    (∀ best second rest,
        sortByScoreDesc (candidateScores b dist start_pos now) = best :: second :: rest →
        second.2.1 ≥ best.2.1 * (17/20) →
        (reassociate b dist start_pos now).1 = none) ∧
    (∀ id, (reassociate b dist start_pos now).1 = some id →
        lookupRecord (reassociate b dist start_pos now).2.buffer id = none) := by
  have hpick : ∀ (sorted : List (Nat × ℚ × ℚ)) (id : Nat),
      (reassocPick b sorted).1 = some id →
      lookupRecord (reassocPick b sorted).2.buffer id = none := by
    intro sorted id hid
    match sorted with
    | [] => exact Option.noConfusion hid
    | [best] =>
        simp only [reassocPick] at hid ⊢
        by_cases hpos : best.2.1 > 0
        · rw [if_pos hpos] at hid ⊢
          obtain rfl : best.1 = id := Option.some.inj hid
          exact lookupRecord_eraseId b.buffer best.1
        · rw [if_neg hpos] at hid
          exact Option.noConfusion hid
    | best :: second :: rest =>
        simp only [reassocPick] at hid ⊢
        by_cases hamb : second.2.1 ≥ best.2.1 * (17/20)
        · rw [if_pos hamb] at hid
          exact Option.noConfusion hid
        · rw [if_neg hamb] at hid ⊢
          by_cases hpos : best.2.1 > 0
          · rw [if_pos hpos] at hid ⊢
            obtain rfl : best.1 = id := Option.some.inj hid
            exact lookupRecord_eraseId b.buffer best.1
          · rw [if_neg hpos] at hid
            exact Option.noConfusion hid
  constructor
  · intro best second rest hs hge
    unfold reassociate
    rw [hs]
    simp only [reassocPick, if_pos hge]
  · intro id hid
    exact hpick (sortByScoreDesc (candidateScores b dist start_pos now)) id hid

/-- Witness for C5: the ambiguous buffer yields none, and the accepted
candidate of the single-entry buffer is removed from the buffer. -/
theorem claim5_reassociate_witness :
    (reassociate bufAmbiguous distL1 (0, 0) 100).1 = none ∧
      lookupRecord (reassociate bufSingle distL1 (0, 0) 100).2.buffer 7 = none :=
  ⟨(claim5_reassociate_ambiguity_and_consumption bufAmbiguous distL1 (0, 0) 100).1
      (3, 4/5, 0) (4, 4/5, 0) [] (by decide) (by decide),
   (claim5_reassociate_ambiguity_and_consumption bufSingle distL1 (0, 0) 100).2
      7 (by decide)⟩

/-- C6: a command whose timestamp differs from now by more than 10 seconds
is rejected: the state is returned unchanged with `updated = false`. -/
theorem claim6_stale_command_rejected (c : AdminCmd) (now : ℚ)
    (occ ent ex : Int) (fr : Bool) (h : |now - c.ts| > 10) :
    check_admin_commands (some c) now occ ent ex fr = (occ, ent, ex, fr, false) := by
  simp only [check_admin_commands]
  rw [if_pos h]

/-- Witness for C6 at a concrete stale command. -/
theorem claim6_stale_command_rejected_witness :
    check_admin_commands (some { command := "RESET_SYSTEM", value := 0, ts := 0 }) 100
      5 2 1 false = (5, 2, 1, false, false) :=
  claim6_stale_command_rejected { command := "RESET_SYSTEM", value := 0, ts := 0 } 100
    5 2 1 false (by decide)

/-- C7 (the code diverges from the claim): `load_occupancy` clamps a
persisted occupancy of 999 down to `MAX_CAPACITY = 80`, but because
`main.py` computes `frozen` from the value `load_occupancy` already
clamped, the system starts with `frozen = false` — it never enters the
freeze mode its own log message announces. -/
theorem claim7_corrupted_load_clamps_but_never_freezes :
    load_occupancy_clamp 999 = 80 ∧ (initState 999 0 0 0).frozen = false := by
  constructor <;> decide

/-- C9: a fresh `SET_OCCUPANCY` command with value 200 and
`MAX_CAPACITY = 80` clamps the occupancy to 80, leaves both counters
unchanged, and clears `frozen`. -/
theorem claim9_set_occupancy_clamps (ts now : ℚ) (occ ent ex : Int) (fr : Bool)
    (h : ¬ |now - ts| > 10) :
    check_admin_commands (some { command := "SET_OCCUPANCY", value := 200, ts := ts })
      now occ ent ex fr = (80, ent, ex, false, true) := by
  simp only [check_admin_commands]
  rw [if_neg h]
  split_ifs with h1 h2 <;>
    first
      | exact absurd h1 (by decide)
      | exact absurd rfl h2
      | rw [show max (0 : Int) (min 200 MAX_CAPACITY) = 80 from by decide]

/-- The inside-tracking update never changes the lifecycle flags. -/
theorem roiInsideTrack_flags (vs : VehicleState) (fully partly : Bool) :
    (roiInsideTrack vs fully partly).has_entered = vs.has_entered ∧
      (roiInsideTrack vs fully partly).has_exited = vs.has_exited := by
  simp only [roiInsideTrack]
  split_ifs <;> exact ⟨rfl, rfl⟩

/-- The OCR trigger check never changes the lifecycle flags. -/
theorem roiOcrTrigger_flags (vs : VehicleState) (bbox : BBox) (direction : String)
    (fully : Bool) :
    (roiOcrTrigger vs bbox direction fully).has_entered = vs.has_entered ∧
      (roiOcrTrigger vs bbox direction fully).has_exited = vs.has_exited := by
  simp only [roiOcrTrigger]
  split_ifs <;> exact ⟨rfl, rfl⟩

set_option maxHeartbeats 2000000 in
/-- One `observe_roi` call never changes the lifecycle flags. -/
theorem observe_roi_preserves_flags (vs : VehicleState) :
    (observe_roi vs).has_entered = vs.has_entered ∧
      (observe_roi vs).has_exited = vs.has_exited := by
  obtain ⟨i, he, hx, ef, oa, ofi, bb, dr, ri, rs, rin, rm, rl⟩ := vs
  cases bb with
  | none => exact ⟨rfl, rfl⟩
  | some bbox =>
      cases dr with
      | none => exact ⟨rfl, rfl⟩
      | some dir =>
          cases ri <;> cases rl <;> cases rs <;>
            · simp only [observe_roi]
              repeat' split
              all_goals
                first
                  | exact ⟨rfl, rfl⟩
                  | exact ⟨(roiOcrTrigger_flags _ _ _ _).1.trans (roiInsideTrack_flags _ _ _).1,
                           (roiOcrTrigger_flags _ _ _ _).2.trans (roiInsideTrack_flags _ _ _).2⟩

/-- C8: running the visibility state machine over any sequence of frames
never changes `has_entered`, `has_exited`, `entry_count` or `exit_count`;
only its one-shot capture flags and private FSM fields can change. -/
theorem claim8_visibility_isolation (inputs : List ObsInput) :
    ∀ (entry_count exit_count : Int) (vs : VehicleState),
      (runObserver entry_count exit_count vs inputs).1 = entry_count ∧
      (runObserver entry_count exit_count vs inputs).2.1 = exit_count ∧
      (runObserver entry_count exit_count vs inputs).2.2.has_entered = vs.has_entered ∧
      (runObserver entry_count exit_count vs inputs).2.2.has_exited = vs.has_exited := by
  induction inputs with
  | nil => intro ec xc vs; exact ⟨rfl, rfl, rfl, rfl⟩
  | cons i rest ih =>
      intro ec xc vs
      have hstep := observe_roi_preserves_flags
        { vs with bbox := some i.bbox, direction := some i.direction }
      obtain ⟨h1, h2, h3, h4⟩ :=
        ih ec xc (observe_roi { vs with bbox := some i.bbox, direction := some i.direction })
      exact ⟨h1, h2, h3.trans hstep.1, h4.trans hstep.2⟩

/-- Witness for C9 at a concrete fresh command. -/
theorem claim9_set_occupancy_clamps_witness :
    check_admin_commands (some { command := "SET_OCCUPANCY", value := 200, ts := 0 }) 5
      42 7 3 true = (80, 7, 3, false, true) :=
  claim9_set_occupancy_clamps 0 5 42 7 3 true (by decide)
